import Mathlib

/-!
Verification of the IT Asset Number Generator (src/src/App.tsx).

Shallow embedding of the numbering engine and registry operations:

* JavaScript strings are modelled as Lean `String` (a list of characters);
  the relevant JS string operations (`padStart`, `substring`, `slice(-2)`,
  `trim`, `toUpperCase`, `toLowerCase`, `replace(/\s+/g, '-')`) are embedded
  as explicit functions over the character list.
* The ES `Map<string, number>` counter store is modelled as an association
  list in insertion order (`Store`); `Map.get` is `List.lookup`, `Map.set`
  is `mapSet` (update in place if present, append otherwise), and
  `new Map(pairs)` is `deserializeCounters`.
* JS numbers occurring here (range bounds, counters) are integers in the
  program, modelled as `Int`.
* The wall-clock read `new Date()` in `generateNextAssetNumber` is made an
  explicit input `now : DateNow`, with `year` the value of `getFullYear()`
  and `month` the value of `getMonth() + 1` (so `1 ≤ month ≤ 12` for any
  real date).
* The `alert` accompanying the `null` return on range exhaustion carries the
  range, type name, prefix and period; the result type `GenResult` records
  those fields in its `exhausted` constructor so the reported data is part
  of the observable result.
-/

/-- The `AssetType` record of the source (line 22), minus the
non-serializable `icon` rendering handle (kept only as its storage key
`iconId`).  The source field `prefix` is named `pfx` here because `prefix`
is reserved in Lean.  `isDefault` is what the spec calls `isProtected`. -/
structure AssetType where
  id : String
  name : String
  pfx : String
  iconId : String
  rangeStart : Int
  rangeEnd : Int
  isDefault : Bool
deriving DecidableEq, Repr

/-- The counter store: the entries of the `Map<string, number>` in
insertion order. -/
abbrev Store := List (String × Int)

/-- The timestamp taken by `new Date()` in `generateNextAssetNumber`
(line 95), reduced to the two fields the generator reads: `year` is
`getFullYear()`, `month` is `getMonth() + 1`. -/
structure DateNow where
  year : Nat
  month : Nat
deriving DecidableEq, Repr

/-- Result of `generateNextAssetNumber` (lines 91-114): `success` carries
the returned `{assetNumber, nextCounterValue}`; `exhausted` is the `null`
return together with the data reported in the warning/alert of lines
106-107 (range bounds, type name, prefix, and the `YY`/`MM` period). -/
inductive GenResult where
  | exhausted (rangeStart rangeEnd : Int) (name pfx yy mm : String)
  | success (assetNumber : String) (nextCounterValue : Int)
deriving DecidableEq, Repr

/-- Outcome of `handleAddAssetType` (lines 178-213): the new type on
success, otherwise which of the five distinct alert messages fired. -/
inductive AddOutcome where
  | added (newType : AssetType)
  | pfxExistsErr
  | nameExistsErr
  | nameEmptyErr
  | pfxEmptyErr
  | pfxLengthErr
deriving DecidableEq, Repr

/-- Outcome of `handleRemoveAssetType` (lines 215-249). -/
inductive RemoveOutcome where
  | protectedErr
  | lastTypeErr
  | removed
deriving DecidableEq, Repr

/-- The part of the React component state the handlers read and write:
the registry, the counter store, and the currently selected type id. -/
structure AppState where
  assetTypes : List AssetType
  lastGeneratedCounters : Store
  selectedType : String
deriving DecidableEq, Repr

/-- JS `String.prototype.padStart(n, c)`: left-pad with `c` up to length
`n` (no-op when already at least that long). -/
def padStart (s : String) (n : Nat) (c : Char) : String :=
  String.mk (List.replicate (n - s.data.length) c ++ s.data)

/-- JS `String.prototype.substring(0, n)`: the first `n` characters. -/
def jsSubstring (s : String) (n : Nat) : String :=
  String.mk (s.data.take n)

/-- JS `String.prototype.trim()`: strip leading and trailing whitespace. -/
def jsTrim (s : String) : String :=
  String.mk (((s.data.dropWhile Char.isWhitespace).reverse.dropWhile
    Char.isWhitespace).reverse)

/-- JS `String.prototype.toUpperCase()` (ASCII fragment). -/
def jsToUpper (s : String) : String :=
  String.mk (s.data.map Char.toUpper)

/-- JS `String.prototype.toLowerCase()` (ASCII fragment). -/
def jsToLower (s : String) : String :=
  String.mk (s.data.map Char.toLower)

/-- Core of JS `replace(/\s+/g, '-')`: every maximal run of whitespace
becomes a single hyphen.  The flag records whether the previous character
was whitespace (i.e. we are inside a run already replaced). -/
def collapseWsAux : List Char → Bool → List Char
  | [], _ => []
  | c :: rest, prevWs =>
    if c.isWhitespace then
      (if prevWs then [] else ['-']) ++ collapseWsAux rest true
    else
      c :: collapseWsAux rest false

/-- The id derivation of line 191:
`trimmedName.toLowerCase().replace(/\s+/g, '-')`. -/
def newIdOf (trimmedName : String) : String :=
  String.mk (collapseWsAux (jsToLower trimmedName).data false)

/-- Line 96: `now.getFullYear().toString().slice(-2)` — the last two
characters of the decimal year. -/
def yearStr (y : Nat) : String :=
  let s := Nat.repr y
  String.mk (s.data.drop (s.data.length - 2))

/-- Line 97: `(now.getMonth() + 1).toString().padStart(2, '0')` —
`DateNow.month` already holds `getMonth() + 1`. -/
def monthStr (m : Nat) : String :=
  padStart (Nat.repr m) 2 '0'

/-- The composite period key of line 100: prefix ++ YY ++ MM. -/
def keyPfxOf (a : AssetType) (now : DateNow) : String :=
  a.pfx ++ yearStr now.year ++ monthStr now.month

/-- ES `Map.prototype.set`: overwrite in place when the key is present
(keeping the original position), append otherwise. -/
def mapSet (m : Store) (k : String) (v : Int) : Store :=
  match m with
  | [] => [(k, v)]
  | (k1, v1) :: rest =>
    if k1 == k then (k1, v) :: rest else (k1, v1) :: mapSet rest k v

/-- The defaulted lookup of line 102:
`lastGeneratedCounters.get(keyPrefix) ?? (rangeStart - 1)`. -/
def lastUsedOf (a : AssetType) (m : Store) (now : DateNow) : Int :=
  (List.lookup (keyPfxOf a now) m).getD (a.rangeStart - 1)

/-- `generateNextAssetNumber` (lines 91-114), with the internal
`new Date()` surfaced as the explicit input `now`. -/
def generateNextAssetNumber (assetType : AssetType) (lastGeneratedCounters : Store)
    (now : DateNow) : GenResult :=
  let year := yearStr now.year
  let month := monthStr now.month
  let keyP := assetType.pfx ++ year ++ month
  let lastUsedNumber := (List.lookup keyP lastGeneratedCounters).getD
    (assetType.rangeStart - 1)
  let nextNumber := lastUsedNumber + 1
  if nextNumber > assetType.rangeEnd then
    .exhausted assetType.rangeStart assetType.rangeEnd assetType.name
      assetType.pfx year month
  else
    .success (keyP ++ padStart (toString nextNumber) 4 '0') nextNumber

/-- The body of `handleGenerate` (lines 163-175) once the selected asset
was found: on success, commit the new counter under the key
`assetNumber.substring(0, prefix.length + 4)` and display the number; on
`null`, display the empty string and leave the store alone. -/
def handleGenerate (asset : AssetType) (counters : Store) (now : DateNow) :
    String × Store :=
  match generateNextAssetNumber asset counters now with
  | .success assetNumber nextCounterValue =>
    let keyP := jsSubstring assetNumber (asset.pfx.length + 4)
    (assetNumber, mapSet counters keyP nextCounterValue)
  | .exhausted .. => ("", counters)

/-- The committed counter values of `n` consecutive generate actions in
the same period, stopping at the first exhaustion. -/
def genValues (a : AssetType) (now : DateNow) : Nat → Store → List Int
  | 0, _ => []
  | Nat.succ n, m =>
    match generateNextAssetNumber a m now with
    | .exhausted .. => []
    | .success _ v => v :: genValues a now n (handleGenerate a m now).2

/-- `n` consecutive integers starting at `start`. -/
def rangeList (start : Int) : Nat → List Int
  | 0 => []
  | Nat.succ n => start :: rangeList (start + 1) n

/-- The seeded registry of lines 39-47 (icon handles dropped,
`iconId` kept). -/
def defaultAssetTypes : List AssetType :=
  [ { id := "laptop", name := "Laptop", pfx := "LT", iconId := "laptop",
      rangeStart := 1, rangeEnd := 1000, isDefault := true },
    { id := "desktop", name := "Desktop PC", pfx := "PC", iconId := "desktop",
      rangeStart := 1001, rangeEnd := 2000, isDefault := true },
    { id := "keyboard", name := "Keyboard", pfx := "KB", iconId := "keyboard",
      rangeStart := 2001, rangeEnd := 3000, isDefault := true },
    { id := "mouse", name := "Mouse", pfx := "MS", iconId := "mouse",
      rangeStart := 3001, rangeEnd := 4000, isDefault := true },
    { id := "printer", name := "Printer", pfx := "PR", iconId := "printer",
      rangeStart := 4001, rangeEnd := 5000, isDefault := true },
    { id := "storage", name := "Storage Device", pfx := "SD", iconId := "storage",
      rangeStart := 5001, rangeEnd := 6000, isDefault := true } ]

/-- Line 151: `Array.from(lastGeneratedCounters.entries())` — under this
state representation the entries in insertion order are the store itself. -/
def serializeCounters (m : Store) : List (String × Int) :=
  m

/-- Line 79: `new Map(parsedArray)` — insert every pair in order into an
empty map. -/
def deserializeCounters (l : List (String × Int)) : Store :=
  l.foldl (fun m kv => mapSet m kv.1 kv.2) []

/-- `handleAddAssetType` (lines 178-213) acting on the registry. -/
def handleAddAssetType (assetTypes : List AssetType) (nameIn pfxIn : String) :
    AddOutcome × List AssetType :=
  let trimmedName := jsTrim nameIn
  let trimmedPfx := jsToUpper (jsTrim pfxIn)
  if trimmedName ≠ "" ∧ trimmedPfx ≠ "" ∧ 2 ≤ trimmedPfx.length ∧
      trimmedPfx.length ≤ 3 then
    if assetTypes.any (fun t => jsToUpper t.pfx == trimmedPfx) then
      (.pfxExistsErr, assetTypes)
    else if assetTypes.any (fun t => jsToLower t.name == jsToLower trimmedName) then
      (.nameExistsErr, assetTypes)
    else
      let maxRangeEnd := assetTypes.foldl (fun mx t => max mx t.rangeEnd) 0
      let newRangeStart := maxRangeEnd + 1
      let newRangeEnd := newRangeStart + 999
      let newId := newIdOf trimmedName
      let newTypeToAdd : AssetType :=
        { id := newId, name := trimmedName, pfx := trimmedPfx,
          iconId := "default", rangeStart := newRangeStart,
          rangeEnd := newRangeEnd, isDefault := false }
      (.added newTypeToAdd, assetTypes ++ [newTypeToAdd])
  else
    if trimmedName = "" then (.nameEmptyErr, assetTypes)
    else if trimmedPfx = "" then (.pfxEmptyErr, assetTypes)
    else (.pfxLengthErr, assetTypes)

/-- `handleRemoveAssetType` (lines 215-249) acting on the component
state.  The commented-out counter cleanup of lines 239-248 is not part of
the program, so the counter store is never touched. -/
def handleRemoveAssetType (st : AppState) (idToRemove : String) :
    RemoveOutcome × AppState :=
  let typeToRemove := st.assetTypes.find? (fun t => t.id == idToRemove)
  let isProt := match typeToRemove with
    | some t => t.isDefault
    | none => false
  if isProt then
    (.protectedErr, st)
  else if st.assetTypes.length ≤ 1 then
    (.lastTypeErr, st)
  else
    let newTypes := st.assetTypes.filter (fun t => t.id != idToRemove)
    let newSelected :=
      if st.selectedType == idToRemove then
        match newTypes.head? with
        | some t => t.id
        | none => ""
      else st.selectedType
    (.removed,
      { assetTypes := newTypes,
        lastGeneratedCounters := st.lastGeneratedCounters,
        selectedType := newSelected })

/-- The seeded laptop type of line 40 (prefix LT, range 1-1000), used in
concrete instances. -/
def laptopType : AssetType :=
  { id := "laptop", name := "Laptop", pfx := "LT", iconId := "laptop",
    rangeStart := 1, rangeEnd := 1000, isDefault := true }

/-- Modelled from the spec (section 4.2): the prefix-duplicate check as the
spec words it — a case-sensitive exact match of the upper-cased, trimmed
input prefix against the existing prefixes.  Stated separately so it can
be compared with the check the code performs. -/
def specPfxDuplicate (reg : List AssetType) (pfxIn : String) : Bool :=
  reg.any (fun t => t.pfx == jsToUpper (jsTrim pfxIn))

/-- A registry entry whose stored prefix is lower-case (constructible by
loading persisted data, which is not normalized on read). -/
def lcPfxType : AssetType :=
  { id := "x", name := "Xtype", pfx := "lt", iconId := "default",
    rangeStart := 1, rangeEnd := 1000, isDefault := false }

/-- A registry entry whose range lies below zero (the data model allows
arbitrary integers with rangeStart ≤ rangeEnd). -/
def negType : AssetType :=
  { id := "neg", name := "Neg", pfx := "NG", iconId := "default",
    rangeStart := -5, rangeEnd := -5, isDefault := false }

/-- A removable custom type, for concrete removal runs. -/
def custType1 : AssetType :=
  { id := "c1", name := "Cust1", pfx := "CA", iconId := "default",
    rangeStart := 6001, rangeEnd := 7000, isDefault := false }

/-- A second removable custom type. -/
def custType2 : AssetType :=
  { id := "c2", name := "Cust2", pfx := "CB", iconId := "default",
    rangeStart := 7001, rangeEnd := 8000, isDefault := false }

/-! ## General-purpose lemmas about the embedded string and map operations -/

theorem strMkData (s : String) : String.mk s.data = s := by
  cases s
  rfl

theorem strLengthData (s : String) : s.length = s.data.length := by
  cases s
  rfl

theorem monthStr_data_length (m : Nat) (hm : m ≤ 12) :
    (monthStr m).data.length = 2 := by
  have hl : (Nat.repr m).data.length ≤ 2 := by
    interval_cases m <;> decide
  simp only [monthStr, padStart, List.length_append, List.length_replicate]
  omega

theorem yearStr_data_length (y : Nat) (hy : 2 ≤ (Nat.repr y).data.length) :
    (yearStr y).data.length = 2 := by
  simp only [yearStr, List.length_drop]
  omega

theorem keyPfxOf_data_length (a : AssetType) (now : DateNow)
    (hy : 2 ≤ (Nat.repr now.year).data.length) (hm : now.month ≤ 12) :
    (keyPfxOf a now).data.length = a.pfx.length + 4 := by
  simp only [keyPfxOf, String.data_append, List.length_append,
    yearStr_data_length now.year hy, monthStr_data_length now.month hm,
    strLengthData]

theorem jsSubstring_append_left (s t : String) (n : Nat)
    (h : s.data.length = n) : jsSubstring (s ++ t) n = s := by
  subst h
  simp only [jsSubstring, String.data_append, List.take_left, strMkData]

theorem lookup_cons_same (k : String) (v : Int) (rest : Store) :
    List.lookup k ((k, v) :: rest) = some v := by
  simp [List.lookup_cons]

theorem lookup_cons_diff (k k1 : String) (v : Int) (rest : Store)
    (h : k ≠ k1) : List.lookup k ((k1, v) :: rest) = List.lookup k rest := by
  simp [List.lookup_cons, beq_eq_false_iff_ne.mpr h]

theorem mapSet_cons_same (k : String) (v v1 : Int) (rest : Store) :
    mapSet ((k, v1) :: rest) k v = (k, v) :: rest := by
  simp [mapSet]

theorem mapSet_cons_diff (k k1 : String) (v v1 : Int) (rest : Store)
    (h : k1 ≠ k) :
    mapSet ((k1, v1) :: rest) k v = (k1, v1) :: mapSet rest k v := by
  simp [mapSet, beq_eq_false_iff_ne.mpr h]

theorem lookup_mapSet_self (m : Store) (k : String) (v : Int) :
    List.lookup k (mapSet m k v) = some v := by
  induction m with
  | nil => simp [mapSet, lookup_cons_same]
  | cons kv rest ih =>
    obtain ⟨k1, v1⟩ := kv
    by_cases h : k1 = k
    · subst h
      rw [mapSet_cons_same, lookup_cons_same]
    · rw [mapSet_cons_diff k k1 v v1 rest h,
        lookup_cons_diff k k1 v1 _ (Ne.symm h)]
      exact ih

theorem lookup_mapSet_ne (m : Store) (k k' : String) (v : Int)
    (h : k' ≠ k) : List.lookup k' (mapSet m k v) = List.lookup k' m := by
  induction m with
  | nil =>
    rw [show mapSet ([] : Store) k v = [(k, v)] from rfl,
      lookup_cons_diff k' k v [] h]
  | cons kv rest ih =>
    obtain ⟨k1, v1⟩ := kv
    by_cases h1 : k1 = k
    · subst h1
      rw [mapSet_cons_same, lookup_cons_diff k' k1 v rest h,
        lookup_cons_diff k' k1 v1 rest h]
    · rw [mapSet_cons_diff k k1 v v1 rest h1]
      by_cases h2 : k' = k1
      · subst h2
        rw [lookup_cons_same, lookup_cons_same]
      · rw [lookup_cons_diff k' k1 v1 _ h2, lookup_cons_diff k' k1 v1 rest h2]
        exact ih

theorem mapSet_eq_append (m : Store) (k : String) (v : Int)
    (h : List.lookup k m = none) : mapSet m k v = m ++ [(k, v)] := by
  induction m with
  | nil => simp [mapSet]
  | cons kv rest ih =>
    obtain ⟨k1, v1⟩ := kv
    by_cases h1 : k1 = k
    · subst h1
      rw [lookup_cons_same] at h
      exact absurd h (by simp)
    · rw [lookup_cons_diff k k1 v1 rest (Ne.symm h1)] at h
      rw [mapSet_cons_diff k k1 v v1 rest h1, ih h]
      rfl

theorem lookup_append_none (a : String) (l1 l2 : Store)
    (h : List.lookup a l1 = none) :
    List.lookup a (l1 ++ l2) = List.lookup a l2 := by
  induction l1 with
  | nil => simp
  | cons kv rest ih =>
    obtain ⟨k1, v1⟩ := kv
    by_cases h1 : a = k1
    · subst h1
      rw [lookup_cons_same] at h
      exact absurd h (by simp)
    · rw [lookup_cons_diff a k1 v1 rest h1] at h
      rw [List.cons_append, lookup_cons_diff a k1 v1 _ h1]
      exact ih h

theorem generate_eq (a : AssetType) (m : Store) (now : DateNow) :
    generateNextAssetNumber a m now =
      if lastUsedOf a m now + 1 > a.rangeEnd then
        .exhausted a.rangeStart a.rangeEnd a.name a.pfx (yearStr now.year)
          (monthStr now.month)
      else
        .success (keyPfxOf a now ++
            padStart (toString (lastUsedOf a m now + 1)) 4 '0')
          (lastUsedOf a m now + 1) :=
  rfl

theorem generate_success_inv (a : AssetType) (m : Store) (now : DateNow)
    (num : String) (v : Int)
    (h : generateNextAssetNumber a m now = .success num v) :
    v = lastUsedOf a m now + 1 ∧ v ≤ a.rangeEnd ∧
    num = keyPfxOf a now ++ padStart (toString v) 4 '0' := by
  rw [generate_eq] at h
  by_cases hc : lastUsedOf a m now + 1 > a.rangeEnd
  · rw [if_pos hc] at h
    exact absurd h (by simp)
  · rw [if_neg hc] at h
    obtain ⟨h1, h2⟩ := GenResult.success.inj h
    refine ⟨h2.symm, ?_, ?_⟩
    · omega
    · rw [← h1, ← h2]

theorem handleGenerate_success (a : AssetType) (m : Store) (now : DateNow)
    (num : String) (v : Int)
    (hy : 2 ≤ (Nat.repr now.year).data.length) (hm : now.month ≤ 12)
    (h : generateNextAssetNumber a m now = .success num v) :
    handleGenerate a m now = (num, mapSet m (keyPfxOf a now) v) := by
  obtain ⟨hv, hle, hnum⟩ := generate_success_inv a m now num v h
  have hkey : jsSubstring num (a.pfx.length + 4) = keyPfxOf a now := by
    rw [hnum]
    exact jsSubstring_append_left _ _ _ (keyPfxOf_data_length a now hy hm)
  simp [handleGenerate, h, hkey]

/-! ## Claim theorems -/

/-- C2: when the stored last-used value for the current key equals
rangeEnd, generate returns the Exhausted outcome carrying the range and
period, and the caller leaves the counter store unchanged. -/
theorem generate_exhausted_no_mutation (a : AssetType) (m : Store)
    (now : DateNow) (h : List.lookup (keyPfxOf a now) m = some a.rangeEnd) :
    generateNextAssetNumber a m now =
      .exhausted a.rangeStart a.rangeEnd a.name a.pfx (yearStr now.year)
        (monthStr now.month)
    ∧ handleGenerate a m now = ("", m) := by
  simp only [keyPfxOf] at h
  have hgen : generateNextAssetNumber a m now =
      .exhausted a.rangeStart a.rangeEnd a.name a.pfx (yearStr now.year)
        (monthStr now.month) := by
    simp only [generateNextAssetNumber, h, Option.getD_some]
    rw [if_pos (by omega)]
  exact ⟨hgen, by simp [handleGenerate, hgen]⟩

theorem generate_exhausted_no_mutation_witness :
    List.lookup (keyPfxOf laptopType ⟨2024, 6⟩) [("LT2406", (1000 : Int))] =
      some laptopType.rangeEnd
    ∧ handleGenerate laptopType [("LT2406", 1000)] ⟨2024, 6⟩ =
      ("", [("LT2406", 1000)]) :=
  ⟨by decide,
    (generate_exhausted_no_mutation laptopType [("LT2406", 1000)]
      ⟨2024, 6⟩ (by decide)).2⟩

/-- C3: generation is deterministic — on equal asset type, counter store
and injected timestamp, two runs return identical results and identical
committed stores. -/
theorem generate_deterministic (a1 a2 : AssetType) (m1 m2 : Store)
    (n1 n2 : DateNow) (ha : a1 = a2) (hm : m1 = m2) (hn : n1 = n2) :
    generateNextAssetNumber a1 m1 n1 = generateNextAssetNumber a2 m2 n2
    ∧ handleGenerate a1 m1 n1 = handleGenerate a2 m2 n2 := by
  subst ha
  subst hm
  subst hn
  exact ⟨rfl, rfl⟩

theorem generate_deterministic_witness :
    generateNextAssetNumber laptopType [] ⟨2024, 6⟩ =
      generateNextAssetNumber laptopType [] ⟨2024, 6⟩
    ∧ handleGenerate laptopType [] ⟨2024, 6⟩ =
      handleGenerate laptopType [] ⟨2024, 6⟩ :=
  generate_deterministic laptopType laptopType [] [] ⟨2024, 6⟩ ⟨2024, 6⟩
    rfl rfl rfl

/-- C9: deserializing the serialized counter store restores it exactly,
order included, for every store whose keys are distinct (every store that
actually is the entry list of a Map has distinct keys). -/
theorem counters_roundtrip (m : Store)
    (hnd : (m.map Prod.fst).Nodup) :
    deserializeCounters (serializeCounters m) = m := by
  have aux : ∀ (l : List (String × Int)) (acc : Store),
      (∀ p ∈ l, List.lookup p.1 acc = none) → (l.map Prod.fst).Nodup →
      l.foldl (fun m kv => mapSet m kv.1 kv.2) acc = acc ++ l := by
    intro l
    induction l with
    | nil => simp
    | cons kv rest ih =>
      intro acc hfresh hnodup
      obtain ⟨k, v⟩ := kv
      simp only [List.map_cons, List.nodup_cons] at hnodup
      have hset : mapSet acc k v = acc ++ [(k, v)] :=
        mapSet_eq_append acc k v (hfresh (k, v) (by simp))
      have hfresh2 : ∀ p ∈ rest, List.lookup p.1 (acc ++ [(k, v)]) = none := by
        intro p hp
        have hne : p.1 ≠ k := by
          intro hkeq
          exact hnodup.1 (hkeq ▸ List.mem_map_of_mem Prod.fst hp)
        rw [lookup_append_none p.1 acc [(k, v)]
          (hfresh p (List.mem_cons_of_mem _ hp)),
          lookup_cons_diff p.1 k v [] hne]
        rfl
      calc List.foldl (fun m kv => mapSet m kv.1 kv.2) acc ((k, v) :: rest)
          = List.foldl (fun m kv => mapSet m kv.1 kv.2) (acc ++ [(k, v)]) rest := by
            simp [hset]
        _ = (acc ++ [(k, v)]) ++ rest := ih (acc ++ [(k, v)]) hfresh2 hnodup.2
        _ = acc ++ (k, v) :: rest := by simp
  have h := aux m [] (by simp [List.lookup]) hnd
  simpa [deserializeCounters, serializeCounters] using h

theorem counters_roundtrip_witness :
    deserializeCounters (serializeCounters
      [("LT2406", (3 : Int)), ("PC2406", 1005)]) =
      [("LT2406", 3), ("PC2406", 1005)] :=
  counters_roundtrip [("LT2406", 3), ("PC2406", 1005)] (by decide)


/-- C1: when the prefix+period key is absent from the counter store,
generate succeeds with prefix ++ YY ++ MM ++ (rangeStart zero-padded to 4
digits) and the caller commits that key to rangeStart; concretely, for
the LT type with range 1-1000, empty store and now = 2024-06, the result
is LT24060001 with store mapping LT2406 to 1, and a second call yields
LT24060002. -/
theorem generate_fresh_key_first_number (a : AssetType) (m : Store)
    (now : DateNow)
    (habs : List.lookup (keyPfxOf a now) m = none)
    (hrange : a.rangeStart ≤ a.rangeEnd)
    (hy : 2 ≤ (Nat.repr now.year).data.length) (hm : now.month ≤ 12) :
    generateNextAssetNumber a m now =
      .success (keyPfxOf a now ++ padStart (toString a.rangeStart) 4 '0')
        a.rangeStart
    ∧ handleGenerate a m now =
        (keyPfxOf a now ++ padStart (toString a.rangeStart) 4 '0',
          mapSet m (keyPfxOf a now) a.rangeStart)
    ∧ List.lookup (keyPfxOf a now) (handleGenerate a m now).2 =
        some a.rangeStart
    ∧ handleGenerate laptopType [] ⟨2024, 6⟩ =
        ("LT24060001", [("LT2406", 1)])
    ∧ handleGenerate laptopType [("LT2406", 1)] ⟨2024, 6⟩ =
        ("LT24060002", [("LT2406", 2)]) := by
  have hlast : lastUsedOf a m now = a.rangeStart - 1 := by
    simp [lastUsedOf, habs]
  have hstep : a.rangeStart - 1 + 1 = a.rangeStart := by omega
  have hgen : generateNextAssetNumber a m now =
      .success (keyPfxOf a now ++ padStart (toString a.rangeStart) 4 '0')
        a.rangeStart := by
    rw [generate_eq, hlast, hstep, if_neg (by omega)]
  have hcommit := handleGenerate_success a m now _ _ hy hm hgen
  refine ⟨hgen, hcommit, ?_, by decide, by decide⟩
  rw [hcommit]
  exact lookup_mapSet_self m (keyPfxOf a now) a.rangeStart

theorem generate_fresh_key_first_number_witness :
    List.lookup (keyPfxOf laptopType ⟨2024, 6⟩) ([] : Store) = none
    ∧ laptopType.rangeStart ≤ laptopType.rangeEnd
    ∧ generateNextAssetNumber laptopType [] ⟨2024, 6⟩ =
        .success (keyPfxOf laptopType ⟨2024, 6⟩ ++
          padStart (toString laptopType.rangeStart) 4 '0')
          laptopType.rangeStart :=
  ⟨rfl, by decide,
    (generate_fresh_key_first_number laptopType [] ⟨2024, 6⟩ rfl (by decide)
      (by decide) (by decide)).1⟩

/-- C10: for a successful generation, the key under which the caller
commits the counter (the first prefix.length + 4 characters of the
returned asset number) coincides with the prefix ++ YY ++ MM key under
which the generator looked up the last-used value.  The year hypothesis
says the decimal year has at least two digits, which holds of every
wall-clock year; the month of a real date is at most 12. -/
theorem commit_key_eq_lookup_key (a : AssetType) (m : Store) (now : DateNow)
    (num : String) (v : Int)
    (hp2 : 2 ≤ a.pfx.length) (hp3 : a.pfx.length ≤ 3)
    (hy : 2 ≤ (Nat.repr now.year).data.length) (hm : now.month ≤ 12)
    (h : generateNextAssetNumber a m now = .success num v) :
    jsSubstring num (a.pfx.length + 4) = keyPfxOf a now := by
  obtain ⟨hv, hle, hnum⟩ := generate_success_inv a m now num v h
  rw [hnum]
  exact jsSubstring_append_left _ _ _ (keyPfxOf_data_length a now hy hm)

theorem commit_key_eq_lookup_key_witness :
    generateNextAssetNumber laptopType [] ⟨2024, 6⟩ =
      .success "LT24060001" 1
    ∧ jsSubstring "LT24060001" (laptopType.pfx.length + 4) =
        keyPfxOf laptopType ⟨2024, 6⟩ :=
  ⟨by decide,
    commit_key_eq_lookup_key laptopType [] ⟨2024, 6⟩ "LT24060001" 1
      (by decide) (by decide) (by decide) (by decide) (by decide)⟩

theorem rangeList_length (s : Int) (n : Nat) :
    (rangeList s n).length = n := by
  induction n generalizing s with
  | zero => rfl
  | succ n ih => simp [rangeList, ih]

theorem rangeList_mem_le (x s : Int) (n : Nat) (h : x ∈ rangeList s n) :
    s ≤ x := by
  induction n generalizing s with
  | zero => simp [rangeList] at h
  | succ n ih =>
    simp only [rangeList, List.mem_cons] at h
    rcases h with h | h
    · omega
    · have := ih (s + 1) h
      omega

theorem rangeList_pairwise (s : Int) (n : Nat) :
    List.Pairwise (fun x y => x < y) (rangeList s n) := by
  induction n generalizing s with
  | zero => exact List.Pairwise.nil
  | succ n ih =>
    refine List.Pairwise.cons ?_ (ih (s + 1))
    intro x hx
    have := rangeList_mem_le x (s + 1) n hx
    omega

theorem genValues_eq (a : AssetType) (now : DateNow)
    (hy : 2 ≤ (Nat.repr now.year).data.length) (hm : now.month ≤ 12) :
    ∀ (n : Nat) (m : Store), lastUsedOf a m now + n ≤ a.rangeEnd →
      genValues a now n m = rangeList (lastUsedOf a m now + 1) n := by
  intro n
  induction n with
  | zero => intro m _; rfl
  | succ n ih =>
    intro m hle
    push_cast at hle
    have hsucc : generateNextAssetNumber a m now =
        .success (keyPfxOf a now ++
            padStart (toString (lastUsedOf a m now + 1)) 4 '0')
          (lastUsedOf a m now + 1) := by
      rw [generate_eq, if_neg (by omega)]
    have hcommit := handleGenerate_success a m now _ _ hy hm hsucc
    have hlast2 : lastUsedOf a (handleGenerate a m now).2 now =
        lastUsedOf a m now + 1 := by
      rw [hcommit]
      simp [lastUsedOf, lookup_mapSet_self]
    have hrec := ih (handleGenerate a m now).2 (by rw [hlast2]; push_cast; omega)
    simp only [genValues, hsucc]
    rw [hrec, hlast2]
    rfl

/-- C6: a successful generation commits exactly one counter-store key
(the current prefix+period key), setting it to one more than its previous
value (rangeStart - 1 when absent) — strictly greater — and leaving every
other key unchanged; N consecutive generations from a fresh key in the
same period yield the consecutive, strictly increasing, gap-free values
rangeStart, rangeStart + 1, .... -/
theorem generate_monotone_single_key (a : AssetType) (m : Store)
    (now : DateNow) (hrange : a.rangeStart ≤ a.rangeEnd)
    (hy : 2 ≤ (Nat.repr now.year).data.length) (hm : now.month ≤ 12) :
    (∀ num v, generateNextAssetNumber a m now = .success num v →
        v = lastUsedOf a m now + 1
      ∧ lastUsedOf a m now < v
      ∧ (handleGenerate a m now).2 = mapSet m (keyPfxOf a now) v
      ∧ List.lookup (keyPfxOf a now) (handleGenerate a m now).2 = some v
      ∧ ∀ k, k ≠ keyPfxOf a now →
          List.lookup k (handleGenerate a m now).2 = List.lookup k m)
    ∧ (List.lookup (keyPfxOf a now) m = none →
        ∀ n : Nat, a.rangeStart - 1 + n ≤ a.rangeEnd →
          genValues a now n m = rangeList a.rangeStart n)
    ∧ (∀ n : Nat, (rangeList a.rangeStart n).length = n
        ∧ List.Pairwise (fun x y => x < y) (rangeList a.rangeStart n)) := by
  refine ⟨?_, ?_, fun n => ⟨rangeList_length a.rangeStart n,
    rangeList_pairwise a.rangeStart n⟩⟩
  · intro num v h
    obtain ⟨hv, hle, hnum⟩ := generate_success_inv a m now num v h
    have hcommit := handleGenerate_success a m now num v hy hm h
    refine ⟨hv, by omega, by rw [hcommit], ?_, ?_⟩
    · rw [hcommit]
      exact lookup_mapSet_self m (keyPfxOf a now) v
    · intro k hk
      rw [hcommit]
      exact lookup_mapSet_ne m (keyPfxOf a now) k v hk
  · intro habs n hn
    have hlast : lastUsedOf a m now = a.rangeStart - 1 := by
      simp [lastUsedOf, habs]
    have h := genValues_eq a now hy hm n m (by rw [hlast]; exact hn)
    rw [h, hlast]
    norm_num

theorem generate_monotone_single_key_witness :
    genValues laptopType ⟨2024, 6⟩ 3 [] = rangeList 1 3
    ∧ (handleGenerate laptopType [] ⟨2024, 6⟩).2 =
        mapSet [] (keyPfxOf laptopType ⟨2024, 6⟩) 1 := by
  have h := generate_monotone_single_key laptopType [] ⟨2024, 6⟩ (by decide)
    (by decide) (by decide)
  exact ⟨h.2.1 rfl 3 (by decide), (h.1 "LT24060001" 1 (by decide)).2.2.1⟩

/-- C4 counterexample: on a registry holding a lower-case stored prefix
"lt", the spec's case-sensitive exact-match check finds no duplicate for
input "LT", yet the add operation rejects it as a duplicate prefix — the
code upper-cases the existing prefixes before comparing, so its check is
not the case-sensitive exact match the claim describes. -/
theorem add_pfx_check_not_case_sensitive_cex :
    specPfxDuplicate [lcPfxType] "LT" = false
    ∧ handleAddAssetType [lcPfxType] "Foo" "LT" =
        (.pfxExistsErr, [lcPfxType]) := by
  exact ⟨by decide, by decide⟩

/-- C4 amended: the code's prefix-duplicate check upper-cases the stored
prefixes before comparing; on registries whose stored prefixes are already
upper case — which all prefixes created by the add operation are — it
coincides with the spec's case-sensitive exact match, and an input prefix
differing only in case from an existing one is rejected; the
name-duplicate check is case-insensitive, rejecting a name differing only
in case from an existing one. -/
theorem add_case_rules (reg : List AssetType) (nameIn pfxIn : String)
    (hup : ∀ t ∈ reg, jsToUpper t.pfx = t.pfx) :
    reg.any (fun t => jsToUpper t.pfx == jsToUpper (jsTrim pfxIn)) =
      specPfxDuplicate reg pfxIn
    ∧ (∀ t ∈ reg, jsToUpper (jsTrim pfxIn) = t.pfx →
        jsTrim nameIn ≠ "" → 2 ≤ (jsToUpper (jsTrim pfxIn)).length →
        (jsToUpper (jsTrim pfxIn)).length ≤ 3 →
        handleAddAssetType reg nameIn pfxIn = (.pfxExistsErr, reg))
    ∧ (∀ t ∈ reg, jsToLower (jsTrim nameIn) = jsToLower t.name →
        jsTrim nameIn ≠ "" → 2 ≤ (jsToUpper (jsTrim pfxIn)).length →
        (jsToUpper (jsTrim pfxIn)).length ≤ 3 →
        reg.any (fun u => jsToUpper u.pfx == jsToUpper (jsTrim pfxIn)) = false →
        handleAddAssetType reg nameIn pfxIn = (.nameExistsErr, reg)) := by
  refine ⟨?_, ?_, ?_⟩
  · unfold specPfxDuplicate
    induction reg with
    | nil => rfl
    | cons hd tl ih =>
      simp only [List.any_cons]
      rw [hup hd (by simp),
        ih (fun t ht => hup t (List.mem_cons_of_mem hd ht))]
  · intro t ht heq hname hlen2 hlen3
    have hpne : jsToUpper (jsTrim pfxIn) ≠ "" := by
      intro h0
      rw [h0] at hlen2
      exact absurd hlen2 (by decide)
    have hany : reg.any (fun u => jsToUpper u.pfx == jsToUpper (jsTrim pfxIn))
        = true :=
      List.any_eq_true.mpr ⟨t, ht, beq_iff_eq.mpr (by rw [hup t ht, heq])⟩
    simp only [handleAddAssetType]
    rw [if_pos ⟨hname, hpne, hlen2, hlen3⟩, if_pos hany]
  · intro t ht heq hname hlen2 hlen3 hnopfx
    have hpne : jsToUpper (jsTrim pfxIn) ≠ "" := by
      intro h0
      rw [h0] at hlen2
      exact absurd hlen2 (by decide)
    have hany : reg.any (fun u => jsToLower u.name == jsToLower (jsTrim nameIn))
        = true :=
      List.any_eq_true.mpr ⟨t, ht, beq_iff_eq.mpr heq.symm⟩
    simp only [handleAddAssetType]
    rw [if_pos ⟨hname, hpne, hlen2, hlen3⟩, if_neg (by rw [hnopfx]; decide),
      if_pos hany]

theorem add_case_rules_witness :
    handleAddAssetType [laptopType] "Foo" "lt" =
      (.pfxExistsErr, [laptopType])
    ∧ handleAddAssetType [laptopType] "lApToP" "ZZ" =
      (.nameExistsErr, [laptopType]) := by
  have h := add_case_rules [laptopType] "Foo" "lt" (by decide)
  have h2 := add_case_rules [laptopType] "lApToP" "ZZ" (by decide)
  exact ⟨h.2.1 laptopType (by simp) (by decide) (by decide) (by decide)
      (by decide),
    h2.2.2 laptopType (by simp) (by decide) (by decide) (by decide) (by decide)
      (by decide)⟩

/-- C5: the add operation does not preserve distinctness of registry ids.
Starting from the seeded registry (whose ids are distinct), adding the
name "Desktop" with prefix "XX" passes every validation (its
case-insensitive name differs from "Desktop PC") and succeeds, yet the
derived id "desktop" duplicates the id of the seeded Desktop PC type, so
the resulting registry has a repeated id — contradicting the source's own
documentation of the id field as a unique identifier. -/
theorem add_duplicate_id_bug :
    (defaultAssetTypes.map (fun t => t.id)).Nodup
    ∧ (handleAddAssetType defaultAssetTypes "Desktop" "XX").1 =
        .added { id := "desktop", name := "Desktop", pfx := "XX",
                 iconId := "default", rangeStart := 6001, rangeEnd := 7000,
                 isDefault := false }
    ∧ ¬ ((handleAddAssetType defaultAssetTypes "Desktop" "XX").2.map
        (fun t => t.id)).Nodup := by
  exact ⟨by decide, by decide, by decide⟩

theorem foldlMax_ge_init (reg : List AssetType) (i : Int) :
    i ≤ reg.foldl (fun mx u => max mx u.rangeEnd) i := by
  induction reg generalizing i with
  | nil => exact le_refl i
  | cons hd tl ih =>
    calc i ≤ max i hd.rangeEnd := le_max_left _ _
      _ ≤ tl.foldl (fun mx u => max mx u.rangeEnd) (max i hd.rangeEnd) :=
        ih (max i hd.rangeEnd)
      _ = ((hd :: tl).foldl (fun mx u => max mx u.rangeEnd) i) := rfl

theorem foldlMax_le_of_mem (reg : List AssetType) (t : AssetType)
    (ht : t ∈ reg) (i : Int) :
    t.rangeEnd ≤ reg.foldl (fun mx u => max mx u.rangeEnd) i := by
  induction reg generalizing i with
  | nil => cases ht
  | cons hd tl ih =>
    rcases List.mem_cons.mp ht with h | h
    · subst h
      have h1 : t.rangeEnd ≤ max i t.rangeEnd := le_max_right _ _
      have h2 := foldlMax_ge_init tl (max i t.rangeEnd)
      calc t.rangeEnd ≤ max i t.rangeEnd := h1
        _ ≤ tl.foldl (fun mx u => max mx u.rangeEnd) (max i t.rangeEnd) := h2
    · exact ih h (max i hd.rangeEnd)

theorem foldlMax_le_bound (reg : List AssetType) (i B : Int) (hi : i ≤ B)
    (hb : ∀ t ∈ reg, t.rangeEnd ≤ B) :
    reg.foldl (fun mx u => max mx u.rangeEnd) i ≤ B := by
  induction reg generalizing i with
  | nil => exact hi
  | cons hd tl ih =>
    exact ih (max i hd.rangeEnd)
      (max_le hi (hb hd (by simp)))
      (fun t ht => hb t (List.mem_cons_of_mem hd ht))

theorem add_added_inv (reg : List AssetType) (nameIn pfxIn : String)
    (t : AssetType) (reg2 : List AssetType)
    (h : handleAddAssetType reg nameIn pfxIn = (.added t, reg2)) :
    t.rangeStart = reg.foldl (fun mx u => max mx u.rangeEnd) 0 + 1
    ∧ t.rangeEnd = reg.foldl (fun mx u => max mx u.rangeEnd) 0 + 1000
    ∧ reg2 = reg ++ [t] := by
  simp only [handleAddAssetType] at h
  split at h
  · split at h
    · exact absurd (congrArg Prod.fst h) (by simp)
    · split at h
      · exact absurd (congrArg Prod.fst h) (by simp)
      · rw [Prod.mk.injEq] at h
        obtain ⟨h1, h2⟩ := h
        have h3 := AddOutcome.added.inj h1
        subst h3
        refine ⟨rfl, ?_, h2.symm⟩
        show reg.foldl (fun mx u => max mx u.rangeEnd) 0 + 1 + 999 =
          reg.foldl (fun mx u => max mx u.rangeEnd) 0 + 1000
        omega
  · split at h
    · exact absurd (congrArg Prod.fst h) (by simp)
    · split at h
      · exact absurd (congrArg Prod.fst h) (by simp)
      · exact absurd (congrArg Prod.fst h) (by simp)

/-- C7 counterexample: on the non-empty registry consisting of one type
with rangeEnd = -5, the add succeeds but assigns rangeStart = 1, not
max(existing rangeEnd) + 1 = -4 — the code folds max starting from 0, so
the claim's formula fails whenever every existing rangeEnd is negative. -/
theorem add_range_not_max_plus_one_cex :
    ([negType].map (fun t => t.rangeEnd)).max? = some (-5)
    ∧ (handleAddAssetType [negType] "Foo" "FO").1 =
        .added { id := "foo", name := "Foo", pfx := "FO", iconId := "default",
                 rangeStart := 1, rangeEnd := 1000, isDefault := false }
    ∧ ((-5 : Int) + 1 ≠ (1 : Int)) := by
  exact ⟨by decide, by decide, by decide⟩

/-- C7 amended: for every non-empty registry in which some type has a
non-negative rangeEnd, a successful add assigns the new type the range
[M+1, M+1000] where M is the maximum existing rangeEnd, and that interval
is disjoint from the range of every existing type.  (When every existing
rangeEnd is negative the code uses 0 in place of M; the interval is
disjoint from all existing ranges in either case.) -/
theorem add_range_allocation (reg : List AssetType) (nameIn pfxIn : String)
    (t : AssetType) (reg2 : List AssetType) (M : Int)
    (hb : ∀ u ∈ reg, u.rangeEnd ≤ M)
    (hmem : ∃ u ∈ reg, u.rangeEnd = M)
    (hM0 : 0 ≤ M)
    (hadd : handleAddAssetType reg nameIn pfxIn = (.added t, reg2)) :
    t.rangeStart = M + 1
    ∧ t.rangeEnd = M + 1000
    ∧ reg2 = reg ++ [t]
    ∧ ∀ u ∈ reg, ∀ x : Int,
        ¬(u.rangeStart ≤ x ∧ x ≤ u.rangeEnd ∧
          t.rangeStart ≤ x ∧ x ≤ t.rangeEnd) := by
  have hfold : reg.foldl (fun mx u => max mx u.rangeEnd) 0 = M := by
    obtain ⟨u, hu, hue⟩ := hmem
    have h1 := foldlMax_le_bound reg 0 M hM0 hb
    have h2 := foldlMax_le_of_mem reg u hu 0
    omega
  obtain ⟨h1, h2, h3⟩ := add_added_inv reg nameIn pfxIn t reg2 hadd
  rw [hfold] at h1 h2
  refine ⟨h1, h2, h3, ?_⟩
  intro u hu x
  have := hb u hu
  omega

theorem add_range_allocation_witness :
    (handleAddAssetType defaultAssetTypes "Server" "SV").1 =
      .added { id := "server", name := "Server", pfx := "SV",
               iconId := "default", rangeStart := 6001, rangeEnd := 7000,
               isDefault := false }
    ∧ ({ id := "server", name := "Server", pfx := "SV", iconId := "default",
         rangeStart := 6001, rangeEnd := 7000,
         isDefault := false } : AssetType).rangeStart = 6000 + 1 := by
  refine ⟨by decide, ?_⟩
  have h := add_range_allocation defaultAssetTypes "Server" "SV"
    { id := "server", name := "Server", pfx := "SV", iconId := "default",
      rangeStart := 6001, rangeEnd := 7000, isDefault := false }
    (defaultAssetTypes ++
      [{ id := "server", name := "Server", pfx := "SV", iconId := "default",
         rangeStart := 6001, rangeEnd := 7000, isDefault := false }])
    6000 (by decide) ⟨defaultAssetTypes.getLast (by decide), by decide, by decide⟩
    (by decide) (by decide)
  exact h.1

/-- C8: removal refuses with no state change when the target is a
protected (seeded) type, regardless of registry size; refuses with no
state change when the registry holds only the target; otherwise removes
exactly the entries carrying the target id; and in every case the counter
store is left untouched (counters keyed by the removed prefix are not
purged). -/
theorem remove_rules (st : AppState) (idToRemove : String) (t : AssetType)
    (hfind : st.assetTypes.find? (fun u => u.id == idToRemove) = some t) :
    (handleRemoveAssetType st idToRemove).2.lastGeneratedCounters =
      st.lastGeneratedCounters
    ∧ (t.isDefault = true →
        handleRemoveAssetType st idToRemove = (.protectedErr, st))
    ∧ (t.isDefault = false → st.assetTypes.length = 1 →
        handleRemoveAssetType st idToRemove = (.lastTypeErr, st))
    ∧ (t.isDefault = false → 2 ≤ st.assetTypes.length →
        (handleRemoveAssetType st idToRemove).1 = .removed
        ∧ (handleRemoveAssetType st idToRemove).2.assetTypes =
            st.assetTypes.filter (fun u => u.id != idToRemove)
        ∧ ∀ u, u ∈ (handleRemoveAssetType st idToRemove).2.assetTypes ↔
            (u ∈ st.assetTypes ∧ u.id ≠ idToRemove)) := by
  by_cases hd : t.isDefault
  · have hrun : handleRemoveAssetType st idToRemove = (.protectedErr, st) := by
      simp only [handleRemoveAssetType, hfind]
      rw [if_pos hd]
    refine ⟨by rw [hrun], fun _ => hrun, ?_, ?_⟩
    · intro hfalse _
      rw [hd] at hfalse
      exact absurd hfalse (by decide)
    · intro hfalse _
      rw [hd] at hfalse
      exact absurd hfalse (by decide)
  · have hd2 : t.isDefault = false := by
      revert hd
      cases t.isDefault <;> simp
    by_cases hlen : st.assetTypes.length ≤ 1
    · have hrun : handleRemoveAssetType st idToRemove = (.lastTypeErr, st) := by
        simp only [handleRemoveAssetType, hfind]
        rw [if_neg (by rw [hd2]; decide), if_pos hlen]
      refine ⟨by rw [hrun], fun htrue => ?_, fun _ _ => hrun, ?_⟩
      · rw [hd2] at htrue
        exact absurd htrue (by decide)
      · intro _ h2
        omega
    · have hrun : handleRemoveAssetType st idToRemove =
          (.removed,
            { assetTypes :=
                st.assetTypes.filter (fun u => u.id != idToRemove),
              lastGeneratedCounters := st.lastGeneratedCounters,
              selectedType :=
                if st.selectedType == idToRemove then
                  match (st.assetTypes.filter
                      (fun u => u.id != idToRemove)).head? with
                  | some u => u.id
                  | none => ""
                else st.selectedType }) := by
        simp only [handleRemoveAssetType, hfind]
        rw [if_neg (by rw [hd2]; decide), if_neg hlen]
      refine ⟨by rw [hrun], fun htrue => ?_, fun _ h1 => by omega, ?_⟩
      · rw [hd2] at htrue
        exact absurd htrue (by decide)
      · intro _ _
        rw [hrun]
        refine ⟨rfl, rfl, ?_⟩
        intro u
        simp [List.mem_filter, bne_iff_ne]

theorem remove_rules_witness :
    handleRemoveAssetType ⟨defaultAssetTypes, [], "laptop"⟩ "laptop" =
      (.protectedErr, ⟨defaultAssetTypes, [], "laptop"⟩)
    ∧ (handleRemoveAssetType ⟨[custType1, custType2], [("CA2406", 6001)],
        "c1"⟩ "c1").1 = .removed
    ∧ (handleRemoveAssetType ⟨[custType1, custType2], [("CA2406", 6001)],
        "c1"⟩ "c1").2.lastGeneratedCounters = [("CA2406", 6001)] := by
  have h1 := remove_rules ⟨defaultAssetTypes, [], "laptop"⟩ "laptop"
    laptopType (by decide)
  have h2 := remove_rules ⟨[custType1, custType2], [("CA2406", 6001)], "c1"⟩
    "c1" custType1 (by decide)
  exact ⟨h1.2.1 rfl, (h2.2.2.2 rfl (by decide)).1, h2.1⟩
